import Mathlib

/-!
Verification of the translation/summarization core of the volt-crypto-news
repository (file `translationService.ts`, given as `src/unnamed/part_000`).

The JavaScript string primitives (regex replacement with the `g` flag,
`trim`, `split`, `toLowerCase`) are embedded as executable Lean functions on
`List Char`.  The two network providers (the LibreTranslate proxy fetch and
the OpenAI chat-completion call), the cheerio HTML text extraction, and the
built-in `JSON.parse` are external boundaries of this module; they are
modelled as environment values/oracles over which the theorems quantify,
exactly as the claims quantify over "every provider behavior".  Exceptional
control flow (`throw`/`try`/`catch`, promise rejection) is modelled with
`Except`: a function that the source allows to throw returns `Except Err α`,
and each `try { A } catch (e) { B }` becomes `jsTry A (fun e => B)`.
-/

namespace TranslationService

/-- Whitespace class of JavaScript `\s` (and of `String.prototype.trim`):
ASCII whitespace, NBSP, the Unicode space separators, line separators and
the BOM. -/
def isJsSpace (c : Char) : Bool :=
  c = ' ' || c = '\t' || c = '\n' || c = '\r' || c = '\x0b' || c = '\x0c' ||
  c = '\u00A0' || c = '\u1680' ||
  ('\u2000' ≤ c && c ≤ '\u200A') ||
  c = '\u2028' || c = '\u2029' || c = '\u202F' || c = '\u205F' ||
  c = '\u3000' || c = '\uFEFF'

/-- JavaScript `String.prototype.trim` on a character list. -/
def jsTrimList (cs : List Char) : List Char :=
  ((cs.dropWhile isJsSpace).reverse.dropWhile isJsSpace).reverse

/-- JavaScript `String.prototype.trim`. -/
def jsTrim (s : String) : String := ⟨jsTrimList s.data⟩

/-- JavaScript `String.prototype.toLowerCase`, restricted to ASCII case
folding (the only case folding the inputs of this module exercise). -/
def jsToLower (s : String) : String := ⟨s.data.map Char.toLower⟩

/-- Test that `ps` is a literal character-list starting `cs`
(`ci` selects case-insensitive comparison, as under the regex `i` flag). -/
def isPfx (ci : Bool) : List Char → List Char → Bool
  | [], _ => true
  | _ :: _, [] => false
  | p :: ps, c :: cs =>
    (if ci then p.toLower = c.toLower else p = c) && isPfx ci ps cs

/-- Elements of the regex fragments appearing in the source: literals
(case-sensitive or not), single-character classes, greedy `*`, greedy `+`,
greedy `?` over a class, and the `$` anchor.  Alternations of the source are
expanded at the pattern-list level (see `matchFirst`), which is
observationally equivalent for every alternation the source uses, because
alternatives there are mutually exclusive or produce matches of identical
span. -/
inductive RE where
  | lit : List Char → RE
  | litCI : List Char → RE
  | cls : (Char → Bool) → RE
  | star : (Char → Bool) → RE
  | plus : (Char → Bool) → RE
  | optc : (Char → Bool) → RE
  | eos : RE

/-- Backtracking matcher for a sequence of `RE` elements against the input
start; returns the rest of the input after the (greedy, leftmost-preferring)
match, as a JavaScript regex engine would leave `lastIndex`.  The recursion
is structural on an explicit fuel so that the kernel can evaluate it; every
recursive call strictly decreases `cs.length + ps.length`, so the fuel
chosen by `seqMatch` below is never exhausted. -/
def seqMatchF : Nat → List RE → List Char → Option (List Char)
  | 0, _, _ => none
  | _ + 1, [], cs => some cs
  | fuel + 1, .lit s :: ps, cs =>
    if isPfx false s cs then seqMatchF fuel ps (cs.drop s.length) else none
  | fuel + 1, .litCI s :: ps, cs =>
    if isPfx true s cs then seqMatchF fuel ps (cs.drop s.length) else none
  | _ + 1, .cls _ :: _, [] => none
  | fuel + 1, .cls f :: ps, c :: cs =>
    if f c then seqMatchF fuel ps cs else none
  | fuel + 1, .star _ :: ps, [] => seqMatchF fuel ps []
  | fuel + 1, .star f :: ps, c :: cs =>
    if f c then
      match seqMatchF fuel (.star f :: ps) cs with
      | some r => some r
      | none => seqMatchF fuel ps (c :: cs)
    else seqMatchF fuel ps (c :: cs)
  | _ + 1, .plus _ :: _, [] => none
  | fuel + 1, .plus f :: ps, c :: cs =>
    if f c then seqMatchF fuel (.star f :: ps) cs else none
  | fuel + 1, .optc _ :: ps, [] => seqMatchF fuel ps []
  | fuel + 1, .optc f :: ps, c :: cs =>
    if f c then
      match seqMatchF fuel ps cs with
      | some r => some r
      | none => seqMatchF fuel ps (c :: cs)
    else seqMatchF fuel ps (c :: cs)
  | fuel + 1, .eos :: ps, [] => seqMatchF fuel ps []
  | _ + 1, .eos :: _, _ :: _ => none

/-- Matcher entry point with sufficient fuel. -/
def seqMatch (ps : List RE) (cs : List Char) : Option (List Char) :=
  seqMatchF (cs.length + ps.length + 1) ps cs

/-- Try a list of whole-pattern alternatives, in order, at the current
position. -/
def matchFirst (pats : List (List RE)) (cs : List Char) : Option (List Char) :=
  match pats with
  | [] => none
  | p :: rest =>
    match seqMatch p cs with
    | some r => some r
    | none => matchFirst rest cs

/-- Global regex replacement: scan left to right, replace each
(non-overlapping) match, and continue after it; the replacement is not
rescanned.  All patterns taken from the source match at least one character,
so the zero-width guard branch is never taken for them. -/
def replaceAllCoreF (matchAt : List Char → Option (List Char))
    (repl : List Char) : Nat → List Char → List Char
  | 0, cs => cs
  | _ + 1, [] => []
  | fuel + 1, c :: cs =>
    match matchAt (c :: cs) with
    | some rest =>
      if rest.length < cs.length + 1 then
        repl ++ replaceAllCoreF matchAt repl fuel rest
      else
        c :: replaceAllCoreF matchAt repl fuel cs
    | none => c :: replaceAllCoreF matchAt repl fuel cs

/-- Replacement entry point with sufficient fuel (each step strictly
shortens the text still to scan). -/
def replaceAllCore (matchAt : List Char → Option (List Char))
    (repl : List Char) (cs : List Char) : List Char :=
  replaceAllCoreF matchAt repl cs.length cs

/-- String-level entry point for `replaceAllCore` over a list of pattern
alternatives. -/
def reReplace (pats : List (List RE)) (repl : String) (s : String) : String :=
  ⟨replaceAllCore (matchFirst pats) repl.data s.data⟩

/-- Class `[^\s]`. -/
def notSpace (c : Char) : Bool := !isJsSpace c

/-- Class `[a-z]`. -/
def isAsciiLower (c : Char) : Bool := 'a' ≤ c && c ≤ 'z'

/-- Class `[A-Z]`. -/
def isAsciiUpper (c : Char) : Bool := 'A' ≤ c && c ≤ 'Z'

/-- Class `[a-z]` under the `i` flag. -/
def isAsciiLetter (c : Char) : Bool := isAsciiLower c || isAsciiUpper c

/-- Class `\w`. -/
def isWordChar (c : Char) : Bool :=
  isAsciiLetter c || ('0' ≤ c && c ≤ '9') || c = '_'

/-- Class `[a-z_]` under the `i` flag. -/
def isLetterUnd (c : Char) : Bool := isAsciiLetter c || c = '_'

/-- Class `[^.]`. -/
def notDot (c : Char) : Bool := c ≠ '.'

/-- Class `[^\s&]`. -/
def notSpaceAmp (c : Char) : Bool := notSpace c && c ≠ '&'

/-- Shorthand for a case-sensitive literal element. -/
def L (s : String) : RE := .lit s.data

/-- Shorthand for a case-insensitive literal element. -/
def LCI (s : String) : RE := .litCI s.data

/-- JavaScript `text.split('|')[0] || text`: the segment before the first
pipe, except that an empty segment (input starting with a pipe, or empty)
is falsy and yields the whole input back. -/
def pipeCut (s : String) : String :=
  let p : String := ⟨s.data.takeWhile (fun c => c ≠ '|')⟩
  if p = "" then s else p

/-- Pattern `https?:\/\/[^\s]+`. -/
def urlPat1 : List RE := [L "http", .optc (fun c => c = 's'), L "://", .plus notSpace]

/-- Pattern `www\.[^\s]+`. -/
def urlPat2 : List RE := [L "www.", .plus notSpace]

/-- Pattern `t\.co\/[^\s]+`. -/
def urlPat3 : List RE := [L "t.co/", .plus notSpace]

/-- Pattern `source=(twitter|web|facebook|instagram|reddit|telegram)[^\s]*`
with the `i` flag, expanded by alternative. -/
def sourcePats : List (List RE) :=
  ["twitter", "web", "facebook", "instagram", "reddit", "telegram"].map
    (fun w => [LCI "source=", LCI w, .star notSpace])

/-- Pattern `utm_[a-z_]+=[^\s&]*` with the `i` flag. -/
def utmPat : List RE := [LCI "utm_", .plus isLetterUnd, L "=", .star notSpaceAmp]

/-- Pattern `ref=[^\s&]*` with the `i` flag. -/
def refPat : List RE := [LCI "ref=", .star notSpaceAmp]

/-- Mandatory head of `\?[a-z_]+=\w+(&[a-z_]+=\w+)*` (`i` flag). -/
def queryBase : List RE := [L "?", .plus isLetterUnd, L "=", .plus isWordChar]

/-- Repeated group `&[a-z_]+=\w+` of the query pattern. -/
def queryGroup : List RE := [L "&", .plus isLetterUnd, L "=", .plus isWordChar]

/-- Greedy repetition of a non-nullable subpattern, fuelled by the input
length (each iteration consumes at least one character, so the fuel is
sufficient). -/
def iterSub (sub : List RE) : Nat → List Char → List Char
  | 0, cs => cs
  | fuel + 1, cs =>
    match seqMatch sub cs with
    | some rest => if rest.length < cs.length then iterSub sub fuel rest else cs
    | none => cs

/-- Matcher for the full query pattern `\?[a-z_]+=\w+(&[a-z_]+=\w+)*`. -/
def queryMatchAt (cs : List Char) : Option (List Char) :=
  match seqMatch queryBase cs with
  | some rest => some (iterSub queryGroup rest.length rest)
  | none => none

/-- Pattern `\s+`. -/
def wsPat : List RE := [.plus isJsSpace]

/-- Pattern `\n\s*\n`. -/
def nlPat : List RE := [L "\n", .star isJsSpace, L "\n"]

/-- The regex cleanup chain of the structured path of `stripHtml`, applied to the
text extracted from the HTML, in source order: pipe truncation, URL and
tracking-fragment removal, artifact-phrase removal, whitespace collapse and
trim (lines 66-90 of the source). -/
def cleanSteps (t0 : String) : String :=
  let t1 := pipeCut t0
  let t2 := reReplace [urlPat1] "" t1
  let t3 := reReplace [urlPat2] "" t2
  let t4 := reReplace [urlPat3] "" t3
  let t5 := reReplace sourcePats "" t4
  let t6 := reReplace [utmPat] "" t5
  let t7 := reReplace [refPat] "" t6
  let t8 : String := ⟨replaceAllCore queryMatchAt [] t7.data⟩
  let t9 := reReplace [[LCI "RSVP:"]] "" t8
  let t10 := reReplace [[LCI "Read more:"]] "" t9
  let t11 := reReplace [[LCI "Click here:"]] "" t10
  let t12 := reReplace [[L "[…]"]] "" t11
  let t13 := reReplace [[L "[...]"]] "" t12
  let t14 := reReplace [wsPat] " " t13
  let t15 := reReplace [nlPat] "\n" t14
  jsTrim t15

/-- Structured path of `stripHtml` after text extraction, including the
10-character floor that turns any cleaned text shorter than 10 characters
into the empty string (source lines 93-95). -/
def cleanPipeline (t0 : String) : String :=
  let t := cleanSteps t0
  if t.length < 10 then "" else t

/-- Pattern `<[^>]*>`. -/
def tagPat : List RE := [L "<", .star (fun c => c ≠ '>'), L ">"]

/-- Behavior of the cheerio boundary: `extract html` is the text content
that cheerio loading, script/style removal and body-text extraction (with
the whole-document fallback, source line 63) produce, or `none` when cheerio throws.  On plain text containing no
markup, entities or tags, the real cheerio extraction is the identity. -/
structure HtmlEnv where
  extract : String → Option String

/-- Function `stripHtml` (source lines 54-109).  The fallback branch reproduces the
operator precedence of the source exactly: the tag-stripped prefix before the
first pipe is used as-is when truthy; only when it is empty does the
expression fall back to the raw input with URLs removed, whitespace
collapsed and trimmed. -/
def stripHtml (henv : HtmlEnv) (html : String) : String :=
  match henv.extract html with
  | some t => cleanPipeline t
  | none =>
    let a := reReplace [tagPat] " " html
    let b : String := ⟨a.data.takeWhile (fun c => c ≠ '|')⟩
    if b ≠ "" then b
    else jsTrim (reReplace [wsPat] " " (reReplace [urlPat1] "" html))

/-- First branch of the regex fallback of `stripHtml`: tags replaced by a
space, then truncated at the first pipe. -/
def fallbackKeep (html : String) : String :=
  ⟨(reReplace [tagPat] " " html).data.takeWhile (fun c => c ≠ '|')⟩

/-- Second branch of the regex fallback of `stripHtml`: raw input with
URLs removed, whitespace collapsed, trimmed (no tag removal, no pipe cut). -/
def fallbackAlt (html : String) : String :=
  jsTrim (reReplace [wsPat] " " (reReplace [urlPat1] "" html))

/-- Modelled from the spec: the fallback behavior claim C6 describes —
remove tags, truncate at the first pipe, then apply the same whitespace
collapse and trimming as the structured path.  Used only to compare the
claimed behavior with the actual fallback of the source. -/
def claimedFallback (html : String) : String :=
  jsTrim (reReplace [wsPat] " "
    (⟨(reReplace [tagPat] " " html).data.takeWhile (fun c => c ≠ '|')⟩))

/-- Cheerio environment for plain-text inputs: extraction is the identity,
which is the real cheerio behavior on strings without tags or entities. -/
def plainEnv : HtmlEnv := ⟨fun s => some s⟩

/-- Cheerio environment in which structured parsing always throws. -/
def throwEnv : HtmlEnv := ⟨fun _ => none⟩

/-- Error values thrown across this module.  The catches of the source never
inspect the caught value, so the constructors only need to distinguish the
throw sites. -/
inductive Err where
  | transport
  | httpStatus (n : Nat)
  | emptyResult
  | badJson
  | jsonParse
  | typeError
  | undefinedErr
deriving DecidableEq, Repr

/-- Behavior of one proxy fetch call of the LibreTranslate
path, covering all the failure modes the source distinguishes: the fetch
rejecting, `response.ok` false, `response.json()` throwing, and a JSON body
with an absent `translatedText` field. -/
inductive LibreResponse where
  | transportError
  | httpError (status : Nat)
  | badJson
  | payload (translatedText : Option String)

/-- Function `translateWithLibreTranslate` (source lines 11-49): throws on transport
error, non-2xx status, malformed JSON, or an absent/blank `translatedText`;
otherwise returns the translated text. -/
def translateWithLibreTranslate : LibreResponse → Except Err String
  | .transportError => .error .transport
  | .httpError s => .error (.httpStatus s)
  | .badJson => .error .badJson
  | .payload none => .error .emptyResult
  | .payload (some t) =>
    if (jsTrim t).length = 0 then .error .emptyResult else .ok t

/-- Message object of a chat-completion choice (`content` may be absent). -/
structure ChatMessage where
  content : Option String

/-- Choice object of a chat-completion response (`message` may be absent). -/
structure ChatChoice where
  message : Option ChatMessage

/-- Response shape of the model completion boundary; the source reads the
first choice content with optional chaining (source line 287). -/
structure ChatResponse where
  choices : List ChatChoice

/-- Extraction of the first choice content: optional chaining over
choices, message and content, with a final falsy-to-empty coercion
(source lines 169 and 287). -/
def extractContent (r : ChatResponse) : String :=
  match r.choices with
  | [] => ""
  | c :: _ =>
    match c.message with
    | none => ""
    | some m =>
      match m.content with
      | none => ""
      | some s => s

/-- Provider behaviors for one invocation of `translateToTurkish`: the one
LibreTranslate fetch and the one OpenAI fallback call it may perform. -/
structure TransEnv where
  libre : LibreResponse
  openai : Except Err ChatResponse

/-- JavaScript `try { body } catch (e) { handler e }`. -/
def jsTry {α : Type} (body : Except Err α) (handler : Err → Except Err α) :
    Except Err α :=
  match body with
  | .ok v => .ok v
  | .error e => handler e

/-- The LibreTranslate tier of `translateToTurkish` (source lines 140-151):
the call is tried, its result is accepted only if truthy, different from the
cleaned input case-insensitively, and longer than 10 characters; a thrown
error or a rejected result both fall through (`none`). -/
def libreAccept (libre : LibreResponse) (cleanText : String) : Option String :=
  match translateWithLibreTranslate libre with
  | .ok lt =>
    if lt ≠ "" ∧ jsToLower lt ≠ jsToLower cleanText ∧ lt.length > 10
    then some lt else none
  | .error _ => none

/-- The OpenAI tier of `translateToTurkish` (source lines 154-176): accepted
only if the extracted content is truthy and longer than 10 characters, in
which case it is re-cleaned with `stripHtml`; a thrown error or a rejected
result both fall through (`none`). -/
def openaiAccept (henv : HtmlEnv) (oa : Except Err ChatResponse) :
    Option String :=
  match oa with
  | .ok resp =>
    let translation := extractContent resp
    if translation ≠ "" ∧ translation.length > 10
    then some (stripHtml henv translation) else none
  | .error _ => none

/-- Function `translateToTurkish` (source lines 126-184).  Blank input is returned
verbatim; input whose cleaned form is blank is returned raw; then the two
provider tiers are tried and, if neither is accepted, the cleaned text is
the degraded result.  The outer catch returns `stripHtml(text)`; its body
cannot actually throw because every provider error is caught inside. -/
def translateToTurkish (henv : HtmlEnv) (tenv : TransEnv) (text : String) :
    Except Err String :=
  jsTry
    (if text = "" ∨ (jsTrim text).length = 0 then .ok text
     else
       let cleanText := stripHtml henv text
       if cleanText = "" ∨ (jsTrim cleanText).length = 0 then .ok text
       else
         match libreAccept tenv.libre cleanText with
         | some lt => .ok lt
         | none =>
           match openaiAccept henv tenv.openai with
           | some r => .ok r
           | none => .ok cleanText)
    (fun _ => .ok (stripHtml henv text))

/-- Target language of `translateText`. -/
inductive Lang where
  | tr
  | en
deriving DecidableEq, Repr

/-- Function `translateText` (source lines 114-121): for English just clean the HTML,
for Turkish delegate to `translateToTurkish`. -/
def translateText (henv : HtmlEnv) (tenv : TransEnv) (text : String)
    (targetLang : Lang) : Except Err String :=
  match targetLang with
  | .en => .ok (stripHtml henv text)
  | .tr => translateToTurkish henv tenv text

/-- Function `translateBatch` (source lines 189-199): `Promise.all` over per-item
`translateToTurkish` calls (each item has its own provider behavior,
`envs i`), with a catch that would return the raw inputs if any item
rejected. -/
def translateBatch (henv : HtmlEnv) (envs : Nat → TransEnv)
    (texts : List String) : Except Err (List String) :=
  jsTry
    (texts.enum.mapM (fun p => translateToTurkish henv (envs p.1) p.2))
    (fun _ => .ok texts)

/-- Loop of `retryWithBackoff` (source lines 216-226): `rem` attempts remain,
`i` is the current 0-based attempt index, `last` the last error observed so
far.  Returns the outcome together with the list of backoff waits performed,
in order.  Exhaustion throws the last error; with zero attempts the
JavaScript code throws `undefined`, modelled as `Except.error none`. -/
def retryGo {E T : Type} (env : Nat → Except E T) (initialDelay : Nat) :
    Nat → Nat → Option E → Except (Option E) T × List Nat
  | 0, _, last => (.error last, [])
  | rem + 1, i, _ =>
    match env i with
    | .ok v => (.ok v, [])
    | .error e =>
      if rem = 0 then (.error (some e), [])
      else
        let r := retryGo env initialDelay rem (i + 1) (some e)
        (r.1, initialDelay * 2 ^ i :: r.2)

/-- Function `retryWithBackoff` (source lines 209-229).  `env i` is the behavior of
the `i`-th sequential call of the retried action. -/
def retryWithBackoff {E T : Type} (env : Nat → Except E T)
    (maxRetries initialDelay : Nat) : Except (Option E) T × List Nat :=
  retryGo env initialDelay maxRetries 0 none

/-- Rethrow of the error kept by the retry loop (`throw lastError`); an
absent last error models the JavaScript throw of undefined. -/
def flattenErr : Option Err → Err
  | some e => e
  | none => .undefinedErr

/-- Runtime JavaScript values that `JSON.parse` can put in the `summary` and
`sentiment` fields; `other` stands for objects/arrays, carrying their
truthiness and the numeric value of their `length` property — for an array
the element count, for an object the number its `length` entry coerces to —
with `none` when the property is absent or coerces to NaN.  Truthiness and
the length property are all the source observes of a non-string summary. -/
inductive JsVal where
  | str (s : String)
  | num (n : Int)
  | boolv (b : Bool)
  | nullv
  | other (isTruthy : Bool) (lengthNum : Option Int)
deriving DecidableEq, Repr

/-- JavaScript truthiness of a `JsVal`. -/
def truthy : JsVal → Bool
  | .str s => s ≠ ""
  | .num n => n ≠ 0
  | .boolv b => b
  | .nullv => false
  | .other t _ => t

/-- The JavaScript comparison of a length property with 10: strings use
their length; numbers, booleans and null have an undefined length, so the
comparison is false; objects and arrays compare the number their length
property holds, when there is one. -/
def jsLenGT10 : JsVal → Bool
  | .str s => s.length > 10
  | .other _ (some n) => n > 10
  | _ => false

/-- Outcome of `JSON.parse` on the cleaned provider text: a throw
(malformed JSON), the value `null` (on which any property access throws), or
any other value with its `summary`/`sentiment` properties (absent properties
read as `undefined`, i.e. `none`; non-object values such as numbers simply
have both properties absent). -/
inductive ParseOutcome where
  | fail
  | nullVal
  | object (summary : Option JsVal) (sentiment : Option JsVal)

/-- Runtime result shape of the summarization functions.  The TypeScript
annotation declares both fields as strings, but at runtime they are plain
JavaScript values: `sentiment` is whatever string the coercion writes, and
`summary` can be a non-string provider value when the English
length-acceptance check passes on one, so both typed invariants are
theorems, not types. -/
structure SummaryWithSentiment where
  summary : JsVal
  sentiment : String
deriving DecidableEq, Repr

/-- Property of being a non-empty string value. -/
def IsNonemptyStr (v : JsVal) : Prop :=
  ∃ s, v = .str s ∧ s ≠ ""

/-- The three admissible sentiment strings. -/
def SentOk (s : String) : Prop :=
  s = "positive" ∨ s = "negative" ∨ s = "neutral"

/-- Membership test of the parsed sentiment in the array of the three
sentiment literals (source line 332): only one of the three exact strings
passes. -/
def includesSentiment : Option JsVal → Bool
  | some (.str s) => s = "positive" || s = "negative" || s = "neutral"
  | _ => false

/-- The sentiment written into the result: the parsed value when the
membership test passes, and the neutral literal otherwise. -/
def coerceSentiment (v : Option JsVal) : String :=
  match v with
  | some (.str s) =>
    if s = "positive" ∨ s = "negative" ∨ s = "neutral" then s else "neutral"
  | _ => "neutral"

/-- Pattern alternation of the markdown code-fence removal applied to the
raw provider text (source line 293). -/
def fencePats : List (List RE) :=
  [[L "```json", .optc (fun c => c = '\n')],
   [L "```", .optc (fun c => c = '\n')]]

/-- Markdown code-fence removal applied to the raw provider text. -/
def stripFences (s : String) : String := reReplace fencePats "" s

/-- Verb alternatives of the first scrub pattern
`\. [A-Z][a-z]+ (is|are|...)[^.]*\.` (source line 302). -/
def scrubVerbs : List String :=
  ["is", "are", "was", "were", "has", "have", "will", "would", "could",
   "should", "can", "may", "might", "had", "been", "being"]

/-- First scrub pattern, expanded by verb alternative. -/
def dotVerbPats : List (List RE) :=
  scrubVerbs.map (fun v =>
    [L ". ", .cls isAsciiUpper, .plus isAsciiLower, L " ", L v,
     .star notDot, L "."])

/-- Sentence-starter words of the seventeen `\. Word [^.]*\.` scrub passes
(source lines 303-319), in their exact order, spaces included. -/
def dotWords : List String :=
  ["The ", "This ", "It ", "According to ", "In ", "On ", "At ", "For ",
   "With ", "From ", "By ", "As ", "However", "Additionally", "Furthermore",
   "Meanwhile", "Moreover"]

/-- One pass `\. w[^.]*\.` replaced by a period. -/
def scrubDotWord (w : String) (s : String) : String :=
  reReplace [[L ". ", L w, .star notDot, L "."]] "." s

/-- Verb alternatives of `\s+(is|are|...)\s+[a-z][^.]*$` (`gi`, line 321). -/
def tailVerbs : List String :=
  ["is", "are", "was", "were", "has", "have", "had", "been", "being"]

/-- Pattern `\s+(verb)\s+[a-z][^.]*$` (`i` flag), expanded by verb. -/
def tailVerbPats : List (List RE) :=
  tailVerbs.map (fun v =>
    [.plus isJsSpace, LCI v, .plus isJsSpace, .cls isAsciiLetter,
     .star notDot, .eos])

/-- Pronoun alternatives of `\s+(the|this|...)\s+[a-z][^.]*$` (`gi`,
line 322). -/
def tailProns : List String :=
  ["the", "this", "that", "these", "those", "it", "he", "she", "they"]

/-- Pattern `\s+(pronoun)\s+[a-z][^.]*$` (`i` flag), expanded. -/
def tailPronPats : List (List RE) :=
  tailProns.map (fun v =>
    [.plus isJsSpace, LCI v, .plus isJsSpace, .cls isAsciiLetter,
     .star notDot, .eos])

/-- Pattern `\s+[A-Z][a-z]+\s*$` (line 324). -/
def trailCapPat : List RE :=
  [.plus isJsSpace, .cls isAsciiUpper, .plus isAsciiLower,
   .star isJsSpace, .eos]

/-- The cross-language leakage scrub applied to the parsed summary in
`summarizeAndTranslate` (source lines 300-328), pass for pass in source
order, ending with `.trim()`, period collapsing and trailing-period
cleanup. -/
def cleanSummaryScrub (s : String) : String :=
  let a := reReplace dotVerbPats "." s
  let b := dotWords.foldl (fun acc w => scrubDotWord w acc) a
  let c := reReplace tailVerbPats "" b
  let d := reReplace tailPronPats "" c
  let e := reReplace [trailCapPat] "" d
  let f := jsTrim e
  let g := reReplace [[.plus (fun c => c = '.')]] "." f
  reReplace [[L ".", .star isJsSpace, .eos]] "." g

/-- Environment of one summarization call: the behavior of each sequential
OpenAI attempt made by the retry loop, the `JSON.parse` oracle, and the
provider behaviors of each sequential `translateToTurkish` call made by the
fallback tier. -/
structure SumEnv where
  openai : Nat → Except Err ChatResponse
  parse : String → ParseOutcome
  trans : Nat → TransEnv

/-- Content preparation shared by both summarizers (source lines 239-242):
title and optional body joined by a blank line (a falsy body leaves the
title alone), truncated to 2000 characters plus an ellipsis marker. -/
def buildContent (title : String) (text : Option String) : String :=
  let content0 :=
    match text with
    | some t => if t = "" then title else title ++ "\n\n" ++ t
    | none => title
  if content0.length > 2000 then ⟨content0.data.take 2000⟩ ++ "..." else content0

/-- Summary/sentiment extraction of the Turkish variant, given the parse
outcome (source lines 294-328): a parse throw or a property access on
`null` propagates; `parsed.summary || title` falls back to the title on a
falsy summary; calling `.replace` on a truthy non-string summary throws a
type error; a string summary goes through the leakage scrub. -/
def parsedSummaryTr (po : ParseOutcome) (title : String) :
    Except Err (String × Option JsVal) :=
  match po with
  | .fail => .error .jsonParse
  | .nullVal => .error .typeError
  | .object summary sentiment =>
    let pick : JsVal :=
      match summary with
      | some v => if truthy v then v else .str title
      | none => .str title
    match pick with
    | .str s => .ok (cleanSummaryScrub s, sentiment)
    | _ => .error .typeError

/-- Summary/sentiment extraction of the English variant (source line 435):
the parsed summary is used verbatim when it is truthy and its length
property compares greater than 10, and the title otherwise.  No scrub and no
type error here: a truthy non-string value with a working numeric length
property — a JSON array of more than 10 elements, or an object whose length
entry exceeds 10 — passes the check and is returned as a non-string
summary. -/
def parsedSummaryEn (po : ParseOutcome) (title : String) :
    Except Err (JsVal × Option JsVal) :=
  match po with
  | .fail => .error .jsonParse
  | .nullVal => .error .typeError
  | .object summary sentiment =>
    let pick : JsVal :=
      match summary with
      | some v => if truthy v && jsLenGT10 v then v else .str title
      | none => .str title
    .ok (pick, sentiment)

/-- Inner `try/catch` around parsing in `summarizeAndTranslate` (source
lines 291-341): on success the scrubbed summary is accepted only when
longer than 10 characters, the sentiment is coerced; on a parse/type error
the raw provider text is used verbatim when longer than 10 characters, and
otherwise the error is rethrown. -/
def trInner (title result : String) (po : ParseOutcome) :
    Except Err SummaryWithSentiment :=
  jsTry
    (match parsedSummaryTr po title with
     | .error e => .error e
     | .ok (cs, sentv) =>
       .ok ⟨.str (if cs ≠ "" ∧ cs.length > 10 then cs else title),
            coerceSentiment sentv⟩)
    (fun parseError =>
      if result ≠ "" ∧ result.length > 10 then .ok ⟨.str result, "neutral"⟩
      else .error parseError)

/-- Inner `try/catch` around parsing in `summarizeInEnglish` (source lines
429-445), identical but with the English summary-acceptance rule and no
scrub. -/
def enInner (title result : String) (po : ParseOutcome) :
    Except Err SummaryWithSentiment :=
  jsTry
    (match parsedSummaryEn po title with
     | .error e => .error e
     | .ok (v, sentv) => .ok ⟨v, coerceSentiment sentv⟩)
    (fun parseError =>
      if result ≠ "" ∧ result.length > 10 then .ok ⟨.str result, "neutral"⟩
      else .error parseError)

/-- Test for at least one Turkish-distinctive character, as the regex
character class of source line 356. -/
def hasTurkishChar (s : String) : Bool :=
  s.data.any (fun c =>
    c = 'ü' ∨ c = 'ğ' ∨ c = 'ı' ∨ c = 'ş' ∨ c = 'ö' ∨ c = 'ç' ∨
    c = 'Ü' ∨ c = 'Ğ' ∨ c = 'İ' ∨ c = 'Ş' ∨ c = 'Ö' ∨ c = 'Ç')

/-- Fallback tier of `summarizeAndTranslate` (source lines 345-369): a
retried bare translation of the title (2 attempts, 500 ms), accepted when
truthy and different, long enough, or containing a Turkish character;
otherwise — and on any throw — the untranslated title with neutral
sentiment. -/
def trFallback (henv : HtmlEnv) (senv : SumEnv) (title : String) :
    Except Err SummaryWithSentiment :=
  jsTry
    (match (retryWithBackoff
              (fun i => translateToTurkish henv (senv.trans i) title)
              2 500).1 with
     | .error oe => .error (flattenErr oe)
     | .ok translatedTitle =>
       if translatedTitle ≠ "" ∧
          (jsToLower translatedTitle ≠ jsToLower title ∨
           translatedTitle.length > 8 ∨
           hasTurkishChar translatedTitle = true)
       then .ok ⟨.str translatedTitle, "neutral"⟩
       else .ok ⟨.str title, "neutral"⟩)
    (fun _ => .ok ⟨.str title, "neutral"⟩)

/-- Function `summarizeAndTranslate` (source lines 236-371). -/
def summarizeAndTranslate (henv : HtmlEnv) (senv : SumEnv) (title : String)
    (text : Option String) : Except Err SummaryWithSentiment :=
  jsTry
    (let content := buildContent title text
     if content = "" ∨ (jsTrim content).length = 0 then .ok ⟨.str title, "neutral"⟩
     else
       match (retryWithBackoff
                (fun i => Except.map extractContent (senv.openai i))
                3 1000).1 with
       | .error oe => .error (flattenErr oe)
       | .ok result =>
         trInner title result (senv.parse (jsTrim (stripFences result))))
    (fun _ => trFallback henv senv title)

/-- Function `summarizeInEnglish` (source lines 378-451). -/
def summarizeInEnglish (senv : SumEnv) (title : String)
    (text : Option String) : Except Err SummaryWithSentiment :=
  jsTry
    (let content := buildContent title text
     if content = "" ∨ (jsTrim content).length = 0 then .ok ⟨.str title, "neutral"⟩
     else
       match (retryWithBackoff
                (fun i => Except.map extractContent (senv.openai i))
                3 1000).1 with
       | .error oe => .error (flattenErr oe)
       | .ok result =>
         enInner title result (senv.parse (jsTrim (stripFences result))))
    (fun _ => .ok ⟨.str title, "neutral"⟩)

/-- Provider environment in which both providers fail with transport
errors. -/
def tenv0 : TransEnv := ⟨.transportError, .error .transport⟩

/-- Summarization environment in which every OpenAI attempt fails, parsing
always throws, and translation providers always fail. -/
def senv0 : SumEnv := ⟨fun _ => .error .transport, fun _ => .fail, fun _ => tenv0⟩

/-- Value of a total `Except` computation, with a default for the
impossible error case. -/
def okOr {α : Type} (e : Except Err α) (dflt : α) : α :=
  match e with
  | .ok v => v
  | .error _ => dflt

/-- The chat response used in the short-summary-rejection scenario. -/
def c8json : String :=
  "\x7b\"summary\": \"ok\", \"sentiment\": \"positive\"\x7d"

/-- A chat response whose only choice carries `c8json` as content. -/
def c8resp : ChatResponse := ⟨[⟨some ⟨some c8json⟩⟩]⟩

/-- Summarization environment realizing the short-summary-rejection
scenario: every OpenAI attempt returns `c8json`, and `JSON.parse` behaves on
`c8json` as the JavaScript builtin does (a two-field object with string
values); translation providers fail. -/
def c8env : SumEnv :=
  ⟨fun _ => .ok c8resp,
   fun s => if s = c8json
            then .object (some (.str "ok")) (some (.str "positive"))
            else .fail,
   fun _ => tenv0⟩

/-- An environment of always-failing attempts with distinguishable errors,
used to witness the retry schedule. -/
def failEnvNat : Nat → Except Nat Unit := fun j => .error j

/-- Raw provider text whose summary field is a 12-element JSON array. -/
def c10json : String :=
  "\x7b\"summary\": [1,2,3,4,5,6,7,8,9,10,11,12], \"sentiment\": \"positive\"\x7d"

/-- A chat response whose only choice carries `c10json` as content. -/
def c10resp : ChatResponse := ⟨[⟨some ⟨some c10json⟩⟩]⟩

/-- Summarization environment realizing the array-summary scenario: every
OpenAI attempt returns `c10json`, and `JSON.parse` behaves on it as the
builtin does — the summary property is an array, which is truthy and whose
length property is the element count 12; the in-set sentiment is a
string. -/
def c10env : SumEnv :=
  ⟨fun _ => .ok c10resp,
   fun s => if s = c10json
            then .object (some (.other true (some 12))) (some (.str "positive"))
            else .fail,
   fun _ => tenv0⟩

section Lemmas

/-- A `try/catch` whose handler returns a plain value cannot fail. -/
theorem jsTry_ok {α : Type} (body : Except Err α) (x : α) :
    ∃ r, jsTry body (fun _ => .ok x) = .ok r := by
  cases body with
  | ok v => exact ⟨v, rfl⟩
  | error e => exact ⟨x, rfl⟩

/-- A `try/catch` whose handler is total cannot fail. -/
theorem jsTry_total {α : Type} (body : Except Err α)
    (handler : Err → Except Err α) (hh : ∀ e, ∃ r, handler e = .ok r) :
    ∃ r, jsTry body handler = .ok r := by
  cases body with
  | ok v => exact ⟨v, rfl⟩
  | error e => exact hh e

/-- Totality of the Turkish translator: it never rejects: every throw site inside its body is
caught before the outer catch, and the outer catch itself returns a plain
value. -/
theorem translateToTurkish_ok (henv : HtmlEnv) (tenv : TransEnv)
    (text : String) : ∃ r, translateToTurkish henv tenv text = .ok r := by
  unfold translateToTurkish
  exact jsTry_ok _ _

/-- The fallback tier of `summarizeAndTranslate` never rejects. -/
theorem trFallback_ok (henv : HtmlEnv) (senv : SumEnv) (title : String) :
    ∃ r, trFallback henv senv title = .ok r := by
  unfold trFallback
  exact jsTry_ok _ _

/-- On the degraded path — non-blank input, non-blank cleaned text, both
provider tiers failing or rejected — `translateToTurkish` returns the
cleaned text. -/
theorem tt_degraded (henv : HtmlEnv) (tenv : TransEnv) (text : String)
    (htext : ¬(text = "" ∨ (jsTrim text).length = 0))
    (hcl : ¬(stripHtml henv text = "" ∨
                (jsTrim (stripHtml henv text)).length = 0))
    (hlibre : libreAccept tenv.libre (stripHtml henv text) = none)
    (hopenai : openaiAccept henv tenv.openai = none) :
    translateToTurkish henv tenv text = .ok (stripHtml henv text) := by
  simp only [translateToTurkish, jsTry, if_neg htext, if_neg hcl,
    hlibre, hopenai]

/-- When the cleaned text is blank but the input is not, the raw input is
returned. -/
theorem tt_raw_return (henv : HtmlEnv) (tenv : TransEnv) (text : String)
    (htext : ¬(text = "" ∨ (jsTrim text).length = 0))
    (hcl : stripHtml henv text = "" ∨
              (jsTrim (stripHtml henv text)).length = 0) :
    translateToTurkish henv tenv text = .ok text := by
  simp only [translateToTurkish, jsTry, if_neg htext, if_pos hcl]

/-- Unfolding of the exponential wait list by its first element. -/
theorem range_pow_cons (d i k : Nat) :
    (List.range (k + 1)).map (fun t => d * 2 ^ (i + t)) =
      d * 2 ^ i :: (List.range k).map (fun t => d * 2 ^ (i + 1 + t)) := by
  rw [List.range_succ_eq_map, List.map_cons, List.map_map]
  refine List.cons_eq_cons.mpr ⟨by norm_num, ?_⟩
  apply List.map_congr_left
  intro t _
  simp only [Function.comp_apply]
  congr 2
  omega

/-- One failing non-final attempt: the loop records one wait and continues
with the remaining attempts. -/
theorem retryGo_step {E T : Type} (env : Nat → Except E T)
    (d rem i : Nat) (last : Option E) (e : E)
    (h : env i = .error e) (hrem : rem ≠ 0) :
    retryGo env d (rem + 1) i last =
      ((retryGo env d rem (i + 1) (some e)).1,
       d * 2 ^ i :: (retryGo env d rem (i + 1) (some e)).2) := by
  simp [retryGo, h, hrem]

/-- Success case of the retry loop: attempts `i, i+1, ...` fail until the
`(i+k)`-th succeeds, producing its value and one backoff wait per failed
attempt. -/
theorem retryGo_success {E T : Type} (env : Nat → Except E T) (d : Nat) :
    ∀ (k rem i : Nat) (last : Option E) (v : T), k < rem →
      (∀ j, j < k → ∃ e, env (i + j) = .error e) → env (i + k) = .ok v →
      retryGo env d rem i last =
        (.ok v, (List.range k).map (fun t => d * 2 ^ (i + t))) := by
  intro k
  induction k with
  | zero =>
    intro rem i last v hk hfail hok
    match rem, hk with
    | rem + 1, _ =>
      have hok' : env i = .ok v := hok
      simp [retryGo, hok']
  | succ k ih =>
    intro rem i last v hk hfail hok
    match rem, hk with
    | rem + 1, _ =>
      obtain ⟨e0, he0⟩ := hfail 0 (Nat.succ_pos k)
      have he0' : env i = .error e0 := he0
      have hrem : rem ≠ 0 := by omega
      have hrec := ih rem (i + 1) (some e0) v (by omega)
        (fun j hj => by
          obtain ⟨e, he⟩ := hfail (j + 1) (by omega)
          exact ⟨e, by rw [show i + 1 + j = i + (j + 1) from by omega]; exact he⟩)
        (by rw [show i + 1 + k = i + (k + 1) from by omega]; exact hok)
      rw [range_pow_cons]
      simp only [retryGo, he0', if_neg hrem, hrec]

/-- Exhaustion case of the retry loop: all `rem` attempts fail; the result
rethrows the error of the last attempt, with one backoff wait after each
failed attempt except the final one. -/
theorem retryGo_allfail {E T : Type} (env : Nat → Except E T) (d : Nat) :
    ∀ (rem i : Nat) (last : Option E), 1 ≤ rem →
      (∀ j, j < rem → ∃ e, env (i + j) = .error e) →
      ∃ e, env (i + (rem - 1)) = .error e ∧
        retryGo env d rem i last =
          (.error (some e), (List.range (rem - 1)).map (fun t => d * 2 ^ (i + t))) := by
  intro rem
  induction rem with
  | zero => intro i last h; omega
  | succ rem ih =>
    intro i last _ hfail
    obtain ⟨e0, he0⟩ := hfail 0 (Nat.succ_pos rem)
    have he0' : env i = .error e0 := he0
    cases Nat.eq_zero_or_pos rem with
    | inl h0 =>
      subst h0
      exact ⟨e0, he0', by simp [retryGo, he0']⟩
    | inr hpos =>
      obtain ⟨e, he, hrec⟩ := ih (i + 1) (some e0) hpos
        (fun j hj => by
          obtain ⟨e', he'⟩ := hfail (j + 1) (by omega)
          exact ⟨e', by rw [show i + 1 + j = i + (j + 1) from by omega]; exact he'⟩)
      refine ⟨e, by rw [show i + (rem + 1 - 1) = i + 1 + (rem - 1) from by omega]; exact he, ?_⟩
      have hrem : rem ≠ 0 := by omega
      obtain ⟨m, rfl⟩ : ∃ m, rem = m + 1 := ⟨rem - 1, by omega⟩
      simp only [Nat.add_sub_cancel] at hrec ⊢
      rw [range_pow_cons, retryGo_step env d (m + 1) i last e0 he0' hrem, hrec]

/-- When the first attempt succeeds, the retry returns immediately with no
waits. -/
theorem retry_first_ok {E T : Type} (env : Nat → Except E T) (m d : Nat)
    (v : T) (h : env 0 = .ok v) (hm : 1 ≤ m) :
    retryWithBackoff env m d = (.ok v, []) := by
  match m, hm with
  | m + 1, _ => simp [retryWithBackoff, retryGo, h]

/-- Sentiment coercion always lands in the enumerated set. -/
theorem coerce_SentOk (v : Option JsVal) : SentOk (coerceSentiment v) := by
  rcases v with _ | w
  · exact Or.inr (Or.inr rfl)
  · rcases w with s | n | b | _ | ⟨t, ln⟩
    · show SentOk (if s = "positive" ∨ s = "negative" ∨ s = "neutral"
        then s else "neutral")
      split
      · rename_i hc; exact hc
      · exact Or.inr (Or.inr rfl)
    · exact Or.inr (Or.inr rfl)
    · exact Or.inr (Or.inr rfl)
    · exact Or.inr (Or.inr rfl)
    · exact Or.inr (Or.inr rfl)

/-- The raw-text degradation branch of the inner parse catch yields a
neutral, non-empty string summary when it yields anything. -/
theorem rawFallback_shape (result : String) (r : SummaryWithSentiment)
    (pe : Err)
    (h : (if result ≠ "" ∧ result.length > 10 then
            (.ok ⟨.str result, "neutral"⟩ : Except Err SummaryWithSentiment)
          else .error pe) = .ok r) :
    SentOk r.sentiment ∧ IsNonemptyStr r.summary := by
  split at h
  · rename_i hc
    injection h with h2
    subst h2
    exact ⟨Or.inr (Or.inr rfl), result, rfl, hc.1⟩
  · cases h

/-- Every successful result of the Turkish inner parse branch has an
enumerated sentiment and, when the title is non-empty, a non-empty string
summary. -/
theorem trInner_shape (title result : String) (po : ParseOutcome)
    (r : SummaryWithSentiment) (h : trInner title result po = .ok r) :
    SentOk r.sentiment ∧ (title ≠ "" → IsNonemptyStr r.summary) := by
  unfold trInner jsTry at h
  cases hp : parsedSummaryTr po title with
  | error e =>
    rw [hp] at h
    dsimp only at h
    have hr := rawFallback_shape result r e h
    exact ⟨hr.1, fun _ => hr.2⟩
  | ok p =>
    obtain ⟨cs, sv⟩ := p
    rw [hp] at h
    dsimp only at h
    injection h with h2
    subst h2
    refine ⟨coerce_SentOk sv, fun ht => ?_⟩
    dsimp only
    split
    · rename_i hc; exact ⟨cs, rfl, hc.1⟩
    · exact ⟨title, rfl, ht⟩

/-- The English summary-acceptance rule returns the title, a non-empty
accepted string, or a truthy non-string value whose numeric length property
exceeds 10. -/
theorem parsedSummaryEn_cases (po : ParseOutcome) (title : String)
    (v : JsVal) (sv : Option JsVal)
    (h : parsedSummaryEn po title = .ok (v, sv)) :
    v = .str title ∨ (∃ s, v = .str s ∧ s ≠ "") ∨
      (∃ n, v = .other true (some n) ∧ n > 10) := by
  rcases po with _ | _ | ⟨sm, sv2⟩
  · cases h
  · cases h
  · unfold parsedSummaryEn at h
    dsimp only at h
    injection h with h2
    rw [Prod.mk.injEq] at h2
    obtain ⟨h3, _⟩ := h2
    rcases sm with _ | w
    · dsimp only at h3; exact Or.inl h3.symm
    · dsimp only at h3
      split at h3
      · rename_i hc
        subst h3
        rw [Bool.and_eq_true] at hc
        rcases w with s | n | b | _ | ⟨t, ln⟩
        · refine Or.inr (Or.inl ⟨s, rfl, ?_⟩)
          have := hc.1
          simpa [truthy] using this
        · exact absurd hc.2 (by simp [jsLenGT10])
        · exact absurd hc.2 (by simp [jsLenGT10])
        · exact absurd hc.2 (by simp [jsLenGT10])
        · rcases ln with _ | n
          · exact absurd hc.2 (by simp [jsLenGT10])
          · have ht : t = true := by simpa [truthy] using hc.1
            have hn : n > 10 := by simpa [jsLenGT10] using hc.2
            subst ht
            exact Or.inr (Or.inr ⟨n, rfl, hn⟩)
      · exact Or.inl h3.symm

/-- Every successful result of the English inner parse branch has an
enumerated sentiment and, when the title is non-empty, a summary that is
either a non-empty string or a truthy non-string value whose numeric length
property exceeds 10. -/
theorem enInner_shape (title result : String) (po : ParseOutcome)
    (r : SummaryWithSentiment) (h : enInner title result po = .ok r) :
    SentOk r.sentiment ∧ (title ≠ "" →
      IsNonemptyStr r.summary ∨
        ∃ n, r.summary = .other true (some n) ∧ n > 10) := by
  unfold enInner jsTry at h
  cases hp : parsedSummaryEn po title with
  | error e =>
    rw [hp] at h
    dsimp only at h
    have hr := rawFallback_shape result r e h
    exact ⟨hr.1, fun _ => Or.inl hr.2⟩
  | ok p =>
    obtain ⟨v, sv⟩ := p
    rw [hp] at h
    dsimp only at h
    injection h with h2
    subst h2
    refine ⟨coerce_SentOk sv, fun ht => ?_⟩
    rcases parsedSummaryEn_cases po title v sv hp with rfl | hne | hoth
    · exact Or.inl ⟨title, rfl, ht⟩
    · exact Or.inl hne
    · exact Or.inr hoth

/-- Every successful result of the fallback translation tier is neutral
with a non-empty string summary (when the title is non-empty). -/
theorem trFallback_shape (henv : HtmlEnv) (senv : SumEnv) (title : String)
    (r : SummaryWithSentiment) (h : trFallback henv senv title = .ok r) :
    SentOk r.sentiment ∧ (title ≠ "" → IsNonemptyStr r.summary) := by
  unfold trFallback at h
  cases hr : (retryWithBackoff
      (fun i => translateToTurkish henv (senv.trans i) title) 2 500).1 with
  | error oe =>
    rw [hr] at h
    unfold jsTry at h
    try dsimp only at h
    injection h with h2
    subst h2
    exact ⟨Or.inr (Or.inr rfl), fun ht => ⟨title, rfl, ht⟩⟩
  | ok tt =>
    rw [hr] at h
    try dsimp only at h
    by_cases hc : tt ≠ "" ∧ (jsToLower tt ≠ jsToLower title ∨
        tt.length > 8 ∨ hasTurkishChar tt = true)
    · rw [if_pos hc] at h
      unfold jsTry at h
      try dsimp only at h
      injection h with h2
      subst h2
      exact ⟨Or.inr (Or.inr rfl), fun _ => ⟨tt, rfl, hc.1⟩⟩
    · rw [if_neg hc] at h
      unfold jsTry at h
      try dsimp only at h
      injection h with h2
      subst h2
      exact ⟨Or.inr (Or.inr rfl), fun ht => ⟨title, rfl, ht⟩⟩

/-- Totality of `summarizeAndTranslate`: it never rejects. -/
theorem summarizeTr_ok (henv : HtmlEnv) (senv : SumEnv) (title : String)
    (body : Option String) :
    ∃ r, summarizeAndTranslate henv senv title body = .ok r := by
  unfold summarizeAndTranslate
  exact jsTry_total _ _ (fun _ => trFallback_ok henv senv title)

/-- Totality of `summarizeInEnglish`: it never rejects. -/
theorem summarizeEn_ok (senv : SumEnv) (title : String)
    (body : Option String) :
    ∃ r, summarizeInEnglish senv title body = .ok r := by
  unfold summarizeInEnglish
  exact jsTry_ok _ _

/-- Every result of `summarizeAndTranslate` has an enumerated sentiment
and inherits a non-empty string summary from a non-empty title. -/
theorem summarizeTr_shape (henv : HtmlEnv) (senv : SumEnv) (title : String)
    (text : Option String) (r : SummaryWithSentiment)
    (h : summarizeAndTranslate henv senv title text = .ok r) :
    SentOk r.sentiment ∧ (title ≠ "" → IsNonemptyStr r.summary) := by
  unfold summarizeAndTranslate at h
  dsimp only at h
  by_cases hb : buildContent title text = "" ∨
      (jsTrim (buildContent title text)).length = 0
  · rw [if_pos hb] at h
    unfold jsTry at h
    injection h with h2
    subst h2
    exact ⟨Or.inr (Or.inr rfl), fun ht => ⟨title, rfl, ht⟩⟩
  · rw [if_neg hb] at h
    cases hr : (retryWithBackoff
        (fun i => Except.map extractContent (senv.openai i)) 3 1000).1 with
    | error oe =>
      rw [hr] at h
      unfold jsTry at h
      try dsimp only at h
      exact trFallback_shape henv senv title r h
    | ok result =>
      rw [hr] at h
      try dsimp only at h
      cases hti : trInner title result
          (senv.parse (jsTrim (stripFences result))) with
      | ok v =>
        rw [hti] at h
        unfold jsTry at h
        try dsimp only at h
        injection h with h2
        subst h2
        exact trInner_shape _ _ _ _ hti
      | error e =>
        rw [hti] at h
        unfold jsTry at h
        try dsimp only at h
        exact trFallback_shape henv senv title r h

/-- Every result of `summarizeInEnglish` has an enumerated sentiment and,
from a non-empty title, a summary that is either a non-empty string or a
truthy non-string provider value whose numeric length property exceeds
10. -/
theorem summarizeEn_shape (senv : SumEnv) (title : String)
    (text : Option String) (r : SummaryWithSentiment)
    (h : summarizeInEnglish senv title text = .ok r) :
    SentOk r.sentiment ∧ (title ≠ "" →
      IsNonemptyStr r.summary ∨
        ∃ n, r.summary = .other true (some n) ∧ n > 10) := by
  unfold summarizeInEnglish at h
  dsimp only at h
  by_cases hb : buildContent title text = "" ∨
      (jsTrim (buildContent title text)).length = 0
  · rw [if_pos hb] at h
    unfold jsTry at h
    injection h with h2
    subst h2
    exact ⟨Or.inr (Or.inr rfl), fun ht => Or.inl ⟨title, rfl, ht⟩⟩
  · rw [if_neg hb] at h
    cases hr : (retryWithBackoff
        (fun i => Except.map extractContent (senv.openai i)) 3 1000).1 with
    | error oe =>
      rw [hr] at h
      unfold jsTry at h
      try dsimp only at h
      injection h with h2
      subst h2
      exact ⟨Or.inr (Or.inr rfl), fun ht => Or.inl ⟨title, rfl, ht⟩⟩
    | ok result =>
      rw [hr] at h
      try dsimp only at h
      cases hti : enInner title result
          (senv.parse (jsTrim (stripFences result))) with
      | ok v =>
        rw [hti] at h
        unfold jsTry at h
        try dsimp only at h
        injection h with h2
        subst h2
        exact enInner_shape _ _ _ _ hti
      | error e =>
        rw [hti] at h
        unfold jsTry at h
        try dsimp only at h
        injection h with h2
        subst h2
        exact ⟨Or.inr (Or.inr rfl), fun ht => Or.inl ⟨title, rfl, ht⟩⟩

/-- Sequencing a list of provably successful `Except` computations yields
the list of their values. -/
theorem mapM_ok_of {α β : Type} (f : α → Except Err β) (g : α → β)
    (l : List α) (h : ∀ x ∈ l, f x = .ok (g x)) :
    l.mapM f = .ok (l.map g) := by
  induction l with
  | nil => rfl
  | cons a l ih =>
    rw [List.mapM_cons, h a (List.mem_cons_self a l),
      ih (fun x hx => h x (List.mem_cons_of_mem a hx))]
    rfl

/-- Evaluation of `translateBatch` as the per-index map of `translateToTurkish`
values: the catch branch is unreachable because every item resolves. -/
theorem translateBatch_eq (henv : HtmlEnv) (envs : Nat → TransEnv)
    (texts : List String) :
    translateBatch henv envs texts =
      .ok (texts.enum.map (fun p =>
        okOr (translateToTurkish henv (envs p.1) p.2) "")) := by
  unfold translateBatch jsTry
  have hm := mapM_ok_of (fun p => translateToTurkish henv (envs p.1) p.2)
    (fun p => okOr (translateToTurkish henv (envs p.1) p.2) "") texts.enum
    (fun p _ => by
      dsimp only
      obtain ⟨r, hr⟩ := translateToTurkish_ok henv (envs p.1) p.2
      rw [hr]
      rfl)
  rw [hm]

/-- A string whose cheerio extraction is itself and which the cleaning
pipeline fixes is a fixed point of `stripHtml`. -/
theorem stripHtml_fixed (henv : HtmlEnv) (y : String)
    (hext : henv.extract y = some y) (hfix : cleanPipeline y = y) :
    stripHtml henv y = y := by
  unfold stripHtml
  rw [hext]
  exact hfix

/-- With failed structured parsing, `stripHtml` is the fallback
conditional. -/
theorem stripHtml_fallback_eq (henv : HtmlEnv) (html : String)
    (hfail : henv.extract html = none) :
    stripHtml henv html =
      if fallbackKeep html ≠ "" then fallbackKeep html
      else fallbackAlt html := by
  unfold stripHtml fallbackKeep fallbackAlt
  rw [hfail]

end Lemmas

section Claims

/-- C1: Totality — for every input (including the empty string, an absent
body, and content longer than 2000 characters) and for every behavior of
the two providers, `translateText`/`translateToTurkish` and
`summarizeAndTranslate`/`summarizeInEnglish` return a value of their
declared result type (an `Except.ok`) and never reject to the caller. -/
theorem c1_totality (henv : HtmlEnv) (tenv : TransEnv) (senv : SumEnv)
    (text title : String) (body : Option String) (lang : Lang) :
    (∃ r, translateText henv tenv text lang = .ok r) ∧
    (∃ r, translateToTurkish henv tenv text = .ok r) ∧
    (∃ r, summarizeAndTranslate henv senv title body = .ok r) ∧
    (∃ r, summarizeInEnglish senv title body = .ok r) := by
  refine ⟨?_, translateToTurkish_ok henv tenv text, ?_, ?_⟩
  · cases lang with
    | en => exact ⟨stripHtml henv text, rfl⟩
    | tr => exact translateToTurkish_ok henv tenv text
  · unfold summarizeAndTranslate
    exact jsTry_total _ _ (fun _ => trFallback_ok henv senv title)
  · unfold summarizeInEnglish
    exact jsTry_ok _ _

/-- C4: Retry schedule and last-error propagation — attempts run
sequentially; after the `i`-th failed attempt (0-based), and only when it is
not the final one, the loop waits `initialDelay * 2^i`; a successful attempt
returns its value immediately (the wait list stops at the last failure
before it, and later attempts are irrelevant since the hypotheses do not
constrain them); if all attempts fail, exactly the last observed error is
rethrown and the earlier ones are discarded. -/
theorem c4_retry_schedule {E T : Type} (env : Nat → Except E T) (m d : Nat)
    (hm : 1 ≤ m) :
    (∀ k v, k < m → (∀ j, j < k → ∃ e, env j = .error e) → env k = .ok v →
      retryWithBackoff env m d =
        (.ok v, (List.range k).map (fun t => d * 2 ^ t))) ∧
    ((∀ j, j < m → ∃ e, env j = .error e) →
      ∃ e, env (m - 1) = .error e ∧
        retryWithBackoff env m d =
          (.error (some e), (List.range (m - 1)).map (fun t => d * 2 ^ t))) := by
  constructor
  · intro k v hk hfail hok
    have := retryGo_success env d k m 0 none v hk
      (fun j hj => by simpa using hfail j hj) (by simpa using hok)
    simpa [retryWithBackoff] using this
  · intro hfail
    obtain ⟨e, he, hr⟩ := retryGo_allfail env d m 0 none hm
      (fun j hj => by simpa using hfail j hj)
    exact ⟨e, by simpa using he, by simpa [retryWithBackoff] using hr⟩

/-- Witness for C4 at the example given by the spec: three failing attempts with
`maxAttempts = 3`, `initialDelay = 1000` produce waits of 1000 then 2000 and
rethrow the error observed on the final attempt. -/
theorem c4_retry_schedule_witness :
    ∃ e, failEnvNat 2 = .error e ∧
      retryWithBackoff failEnvNat 3 1000 =
        (.error (some e), [1000, 2000]) := by
  obtain ⟨e, he, hr⟩ :=
    (c4_retry_schedule failEnvNat 3 1000 (by omega)).2 (fun j _ => ⟨j, rfl⟩)
  refine ⟨e, he, ?_⟩
  have : (List.range (3 - 1)).map (fun t => 1000 * 2 ^ t) = [1000, 2000] := by decide
  rw [this] at hr
  exact hr

/-- C2 counterexample: the claim "for every input string and every target
language the translation operation returns a non-empty string" is false —
the empty input is returned verbatim (source line 128-130), so
`translateText` yields the empty string for it. -/
theorem c2_translation_nonempty_counterexample :
    ¬ (∀ (henv : HtmlEnv) (tenv : TransEnv) (text : String) (lang : Lang)
         (r : String), translateText henv tenv text lang = .ok r → r ≠ "") := by
  intro hall
  exact hall plainEnv tenv0 "" .tr "" rfl rfl

/-- C2 amended: for target language Turkish, whenever the trim of the input
is non-blank and neither provider tier has its output accepted, the result is a
non-empty string (the cleaned text when usable, otherwise the raw input). -/
theorem c2_translation_nonempty_amended (henv : HtmlEnv) (tenv : TransEnv)
    (text : String) (ht : (jsTrim text).length ≠ 0)
    (hlibre : libreAccept tenv.libre (stripHtml henv text) = none)
    (hopenai : openaiAccept henv tenv.openai = none) :
    ∃ r, translateToTurkish henv tenv text = .ok r ∧ r ≠ "" := by
  have htne : text ≠ "" := by
    intro h0
    rw [h0] at ht
    exact ht rfl
  have hguard : ¬(text = "" ∨ (jsTrim text).length = 0) := by
    rintro (h0 | h0)
    · exact htne h0
    · exact ht h0
  by_cases hc : stripHtml henv text = "" ∨
      (jsTrim (stripHtml henv text)).length = 0
  · exact ⟨text, tt_raw_return henv tenv text hguard hc, htne⟩
  · refine ⟨stripHtml henv text,
      tt_degraded henv tenv text hguard hc hlibre hopenai, ?_⟩
    intro h0
    exact hc (Or.inl h0)

/-- Witness for the amended C2: a short non-blank input whose cleaned text
is blank, with both providers failing, yields the raw input back. -/
theorem c2_translation_nonempty_amended_witness :
    ∃ r, translateToTurkish plainEnv tenv0 "hi" = .ok r ∧ r ≠ "" :=
  c2_translation_nonempty_amended plainEnv tenv0 "hi" (by decide) rfl rfl

/-- C3: Sentiment closure — for every provider behavior (including missing,
numeric, or out-of-enumeration sentiment values), the `sentiment` field of
the results of both summarizers is one of positive, negative, neutral, and
any value failing the `includes` test is coerced to `neutral`. -/
theorem c3_sentiment_closure (henv : HtmlEnv) (senv : SumEnv) (title : String)
    (body : Option String) :
    (∃ r, summarizeAndTranslate henv senv title body = .ok r ∧
       SentOk r.sentiment) ∧
    (∃ r, summarizeInEnglish senv title body = .ok r ∧ SentOk r.sentiment) ∧
    (∀ v, includesSentiment v = false → coerceSentiment v = "neutral") := by
  refine ⟨?_, ?_, ?_⟩
  · obtain ⟨r, hr⟩ := summarizeTr_ok henv senv title body
    exact ⟨r, hr, (summarizeTr_shape henv senv title body r hr).1⟩
  · obtain ⟨r, hr⟩ := summarizeEn_ok senv title body
    exact ⟨r, hr, (summarizeEn_shape senv title body r hr).1⟩
  · intro v hv
    rcases v with _ | w
    · rfl
    · rcases w with s | n | b | _ | t
      · show (if s = "positive" ∨ s = "negative" ∨ s = "neutral"
          then s else "neutral") = "neutral"
        unfold includesSentiment at hv
        rw [if_neg]
        rintro (h0 | h0 | h0) <;> simp [h0] at hv
      · rfl
      · rfl
      · rfl
      · rfl

/-- C5: Degradation order — non-blank input whose cleaned text is non-blank,
with the fast provider failed/rejected and the fallback provider
failed/rejected, makes `translateToTurkish` return exactly the cleaned
(normalized) text, which is not the empty string. -/
theorem c5_degradation_order (henv : HtmlEnv) (tenv : TransEnv) (text : String)
    (htext : ¬(text = "" ∨ (jsTrim text).length = 0))
    (hcl : ¬(stripHtml henv text = "" ∨
                (jsTrim (stripHtml henv text)).length = 0))
    (hlibre : libreAccept tenv.libre (stripHtml henv text) = none)
    (hopenai : openaiAccept henv tenv.openai = none) :
    translateToTurkish henv tenv text = .ok (stripHtml henv text) ∧
    stripHtml henv text ≠ "" :=
  ⟨tt_degraded henv tenv text htext hcl hlibre hopenai,
   fun h0 => hcl (Or.inl h0)⟩

/-- Witness for C5: with both providers failing on transport, a clean input
is returned as its own normalization. -/
theorem c5_degradation_order_witness :
    translateToTurkish plainEnv tenv0 "Bitcoin rallies strongly" =
      .ok (stripHtml plainEnv "Bitcoin rallies strongly") ∧
    stripHtml plainEnv "Bitcoin rallies strongly" ≠ "" :=
  c5_degradation_order plainEnv tenv0 "Bitcoin rallies strongly"
    (by decide) (by decide) rfl rfl

/-- C6 counterexample: the claim that the regex fallback of `stripHtml`
"applies the same whitespace collapse and trimming as the structured path"
is false — on the input with two spaces around a pipe, with cheerio
throwing, the operator precedence of the source returns the untrimmed, uncollapsed prefix `"a  "` while the
claimed behavior produces `"a"`. -/
theorem c6_fallback_counterexample :
    ¬ (∀ (henv : HtmlEnv) (html : String), henv.extract html = none →
        stripHtml henv html = claimedFallback html) := by
  intro hall
  have h := hall throwEnv "a  |  b" rfl
  exact absurd h (by decide)

/-- C6 amended: when structured parsing throws, `stripHtml` returns the
tag-stripped input truncated at the first pipe when that is non-empty —
without whitespace collapse or trimming — and otherwise the raw input with
URLs removed, whitespace collapsed and trimmed (without tag removal); being
a total function of the input, this terminal path never raises. -/
theorem c6_fallback_amended (henv : HtmlEnv) (html : String)
    (hfail : henv.extract html = none) :
    (fallbackKeep html ≠ "" ∧ stripHtml henv html = fallbackKeep html) ∨
    (fallbackKeep html = "" ∧ stripHtml henv html = fallbackAlt html) := by
  by_cases hk : fallbackKeep html = ""
  · refine Or.inr ⟨hk, ?_⟩
    rw [stripHtml_fallback_eq henv html hfail, if_neg (by simp [hk])]
  · refine Or.inl ⟨hk, ?_⟩
    rw [stripHtml_fallback_eq henv html hfail, if_pos hk]

/-- Witness for the amended C6 at a concrete input with a non-empty
pipe-truncated prefix. -/
theorem c6_fallback_amended_witness :
    (fallbackKeep "x  y" ≠ "" ∧ stripHtml throwEnv "x  y" = fallbackKeep "x  y") ∨
    (fallbackKeep "x  y" = "" ∧ stripHtml throwEnv "x  y" = fallbackAlt "x  y") :=
  c6_fallback_amended throwEnv "x  y" rfl

/-- C7 counterexample: normalization is not idempotent — on the plain-text
input `"RSRSVP:VP: aaaaaaaaaa"` (where cheerio extraction is the identity),
the first pass reassembles the artifact phrase `"RSVP:"` from the removal of
its embedded copy, and the second pass removes it, so the two passes
differ. -/
theorem c7_idempotence_counterexample :
    stripHtml plainEnv (stripHtml plainEnv "RSRSVP:VP: aaaaaaaaaa") ≠
      stripHtml plainEnv "RSRSVP:VP: aaaaaaaaaa" := by decide

/-- C7 amended: one `stripHtml` pass is idempotent exactly on outputs that
the cleaning pipeline already fixes: whenever cheerio re-extracts the
output of the first pass unchanged and the cleaning pipeline (including the
10-character floor) leaves it unchanged, a second pass is a no-op; in
general the second pass can strip further (see the counterexample). -/
theorem c7_idempotence_amended (henv : HtmlEnv) (x : String)
    (hext : henv.extract (stripHtml henv x) = some (stripHtml henv x))
    (hfix : cleanPipeline (stripHtml henv x) = stripHtml henv x) :
    stripHtml henv (stripHtml henv x) = stripHtml henv x :=
  stripHtml_fixed henv (stripHtml henv x) hext hfix

/-- Witness for the amended C7 on an already-clean plain text. -/
theorem c7_idempotence_amended_witness :
    stripHtml plainEnv (stripHtml plainEnv "Bitcoin climbs higher") =
      stripHtml plainEnv "Bitcoin climbs higher" :=
  c7_idempotence_amended plainEnv "Bitcoin climbs higher" rfl (by decide)

/-- C8: Short-summary rejection — when the provider returns the raw text
`{"summary": "ok", "sentiment": "positive"}` (as `c8json`) for title
`"ETH surges"` with no body, and `JSON.parse` behaves on it as the builtin
does, the 2-character summary is rejected (not exceeding 10 characters) in
favor of the original title, while the in-set sentiment is preserved. -/
theorem c8_short_summary_rejected (henv : HtmlEnv) (senv : SumEnv)
    (hopenai : senv.openai 0 = .ok c8resp)
    (hparse : senv.parse c8json =
      .object (some (.str "ok")) (some (.str "positive"))) :
    summarizeAndTranslate henv senv "ETH surges" none =
      .ok ⟨.str "ETH surges", "positive"⟩ := by
  have h0 : (fun i => Except.map extractContent (senv.openai i)) 0 =
      .ok c8json := by
    show Except.map extractContent (senv.openai 0) = .ok c8json
    rw [hopenai]
    rfl
  have hretry := retry_first_ok
    (fun i => Except.map extractContent (senv.openai i)) 3 1000 c8json h0
    (by omega)
  unfold summarizeAndTranslate jsTry
  simp only [hretry]
  rw [if_neg (by decide)]
  have hcln : jsTrim (stripFences c8json) = c8json := by decide
  simp only [hcln, hparse]
  rfl

/-- Witness for C8 with the concrete environment `c8env`. -/
theorem c8_short_summary_rejected_witness :
    summarizeAndTranslate plainEnv c8env "ETH surges" none =
      .ok ⟨.str "ETH surges", "positive"⟩ :=
  c8_short_summary_rejected plainEnv c8env rfl rfl

/-- C9: Batch order preservation and failure isolation — for every list of
texts and every per-item provider behavior, `translateBatch` resolves to a
list of the same length whose `i`-th element is the `translateToTurkish`
result of the `i`-th input under the provider behavior belonging to item
`i` (so provider failures at one item cannot influence any other item). -/
theorem c9_batch_order (henv : HtmlEnv) (envs : Nat → TransEnv)
    (texts : List String) :
    ∃ rs, translateBatch henv envs texts = .ok rs ∧
      rs.length = texts.length ∧
      (∀ i, ∀ hi : i < texts.length, ∀ hi2 : i < rs.length,
        translateToTurkish henv (envs i) texts[i] = .ok rs[i]) := by
  refine ⟨_, translateBatch_eq henv envs texts, ?_, ?_⟩
  · simp [List.enum_length]
  · intro i hi hi2
    rw [List.getElem_map, List.getElem_enum]
    obtain ⟨r, hr⟩ := translateToTurkish_ok henv (envs i) texts[i]
    rw [hr]
    rfl

/-- Witness for C9 on a one-element batch with failing providers. -/
theorem c9_batch_order_witness :
    ∃ rs, translateBatch plainEnv (fun _ => tenv0) ["hello world news"] =
        .ok rs ∧ rs.length = 1 ∧
      ∃ h2 : 0 < rs.length,
        translateToTurkish plainEnv tenv0 "hello world news" =
          .ok (rs.get ⟨0, h2⟩) := by
  obtain ⟨rs, h1, hlen, hidx⟩ :=
    c9_batch_order plainEnv (fun _ => tenv0) ["hello world news"]
  have h2 : 0 < rs.length := by rw [hlen]; decide
  exact ⟨rs, h1, hlen, h2, hidx 0 (by decide) h2⟩

/-- C10 counterexample: the claimed invariant — the summary field of the
result of both summarizers is always a non-empty string when the title is
non-empty — is false.  Source line 435 checks only truthiness and
`.length > 10` on the parsed summary, so a JSON array of 12 elements (as in
`c10env`, whose parse oracle mirrors the builtin on `c10json`) is accepted
verbatim and `summarizeInEnglish` returns a non-string summary. -/
theorem c10_nonempty_summary_counterexample :
    ¬ (∀ (henv : HtmlEnv) (senv : SumEnv) (title : String)
         (body : Option String), title ≠ "" →
        (∀ r, summarizeAndTranslate henv senv title body = .ok r →
           IsNonemptyStr r.summary) ∧
        (∀ r, summarizeInEnglish senv title body = .ok r →
           IsNonemptyStr r.summary)) := by
  intro hall
  have h := (hall plainEnv c10env "ETH surges" none (by decide)).2
    ⟨.other true (some 12), "positive"⟩ rfl
  obtain ⟨s, hs, _⟩ := h
  exact JsVal.noConfusion hs

/-- C10 amended: whenever the title argument is non-empty, the summary of
`summarizeAndTranslate` is always a non-empty string, and the summary of
`summarizeInEnglish` is either a non-empty string or a truthy non-string
provider value whose numeric length property exceeds 10, accepted verbatim
by the length check — never the empty string. -/
theorem c10_nonempty_summary_amended (henv : HtmlEnv) (senv : SumEnv)
    (title : String) (body : Option String) (h : title ≠ "") :
    (∃ r, summarizeAndTranslate henv senv title body = .ok r ∧
       IsNonemptyStr r.summary) ∧
    (∃ r, summarizeInEnglish senv title body = .ok r ∧
       (IsNonemptyStr r.summary ∨
        ∃ n, r.summary = .other true (some n) ∧ n > 10)) := by
  constructor
  · obtain ⟨r, hr⟩ := summarizeTr_ok henv senv title body
    exact ⟨r, hr, (summarizeTr_shape henv senv title body r hr).2 h⟩
  · obtain ⟨r, hr⟩ := summarizeEn_ok senv title body
    exact ⟨r, hr, (summarizeEn_shape senv title body r hr).2 h⟩

/-- Witness for the amended C10 with everything failing. -/
theorem c10_nonempty_summary_amended_witness :
    (∃ r, summarizeAndTranslate plainEnv senv0 "News flash" none = .ok r ∧
       IsNonemptyStr r.summary) ∧
    (∃ r, summarizeInEnglish senv0 "News flash" none = .ok r ∧
       (IsNonemptyStr r.summary ∨
        ∃ n, r.summary = .other true (some n) ∧ n > 10)) :=
  c10_nonempty_summary_amended plainEnv senv0 "News flash" none (by decide)

end Claims

end TranslationService
